import Mathlib

/-!
Verification development for the Agent_Framework conversational
product-recommendation engine.

The Python sources are shallowly embedded: each definition below transcribes
one function (or a contiguous fragment) of the repository, with the source
file and line range noted in its doc comment.  Python `None`/absent dict keys
become `Option.none`, Python numbers become `ℚ`, JSON values parsed by
`json.loads` become the inductive `Json`, and Python exceptions at modelled
call boundaries become `Option`/explicit outcome constructors.
-/

namespace AgentSpec

/-- Model of a JSON value as produced by Python json.loads: dicts are
association lists (keys unique, insertion-ordered). -/
inductive Json where
  | null
  | bool (b : Bool)
  | num (q : ℚ)
  | str (s : String)
  | arr (elems : List Json)
  | obj (fields : List (String × Json))

/-- Python truthiness of a JSON value (bool(v)). -/
def Json.truthy : Json → Bool
  | .null => false
  | .bool b => b
  | .num q => q != 0
  | .str s => s != ""
  | .arr xs => !xs.isEmpty
  | .obj fs => !fs.isEmpty

/-- Whether a JSON value is a string. -/
def Json.isStr : Json → Bool
  | .str _ => true
  | _ => false

/-- Whether a JSON value is a non-empty string. -/
def Json.isNonemptyStr : Json → Bool
  | .str s => s != ""
  | _ => false

/-- Python's short-circuit or on values: a or b is a when a is truthy,
else b. -/
def pyOr (a b : Json) : Json := if a.truthy then a else b

/-- Python dict .get(key, default) on a parsed-JSON object's fields. -/
def jGetD (fields : List (String × Json)) (key : String) (default : Json) : Json :=
  (fields.lookup key).getD default

/-- Whether the char list a is a leading segment of b (helper for substring
search). -/
def listStartsWith : List Char → List Char → Bool
  | [], _ => true
  | _ :: _, [] => false
  | a :: as, b :: bs => a == b && listStartsWith as bs

/-- Whether needle occurs contiguously inside hay (helper for substring
search). -/
def listSubstr (needle : List Char) : List Char → Bool
  | [] => needle.isEmpty
  | b :: bs => listStartsWith needle (b :: bs) || listSubstr needle bs

/-- Model of Python needle in hay on strings (contiguous substring test). -/
def pyIn (needle hay : String) : Bool := listSubstr needle.toList hay.toList

/-- Model of Python str.lower (character-wise, matching the ASCII inputs the
code lowercases). -/
def pyLower (s : String) : String := ⟨s.data.map Char.toLower⟩

/-- Model of Python str.strip: whitespace removed from both ends. -/
def pyStrip (s : String) : String :=
  ⟨((s.data.dropWhile Char.isWhitespace).reverse.dropWhile Char.isWhitespace).reverse⟩

mutual

/-- Model of Python repr of a JSON-like value (used only through pyStr for
stringifying follow-up questions; numeric rendering is approximated, which no
theorem below depends on). -/
def pyRepr : Json → String
  | .null => "None"
  | .bool b => if b then "True" else "False"
  | .num q => toString q
  | .str s => "\x27" ++ s ++ "\x27"
  | .arr xs => "[" ++ String.intercalate ", " (pyReprList xs) ++ "]"
  | .obj fs => "\x7b" ++ String.intercalate ", " (pyReprFields fs) ++ "\x7d"

/-- Renders each element of a JSON array (helper for pyRepr). -/
def pyReprList : List Json → List String
  | [] => []
  | x :: xs => pyRepr x :: pyReprList xs

/-- Renders each field of a JSON object (helper for pyRepr). -/
def pyReprFields : List (String × Json) → List String
  | [] => []
  | (k, v) :: fs => ("\x27" ++ k ++ "\x27: " ++ pyRepr v) :: pyReprFields fs

end

/-- Model of Python str(v): strings render as themselves, everything else via
repr-style rendering. -/
def pyStr (j : Json) : String :=
  match j with
  | .str s => s
  | _ => pyRepr j

/-- A catalog product as handed to LLMClient.update_product_catalog by the
retrievers.  Only the id and name fields are read by llm_client.py, so
only those are modelled. -/
structure Product where
  id : String
  name : String
deriving DecidableEq

/-- src/config.py line 36: MAX_RECOMMENDATIONS = 5. -/
def MAX_RECOMMENDATIONS : Nat := 5

/-- src/agent/llm_client.py lines 41-45 (_load_product_catalog):
valid_product_ids is the set of non-empty ids.  Python stores it as a set
whose iteration order is hash-dependent; it is modelled as a duplicate-free
list in first-insertion order, which is sound only for order-independent
properties (all theorems below are order-independent). -/
def validIds (catalog : List Product) : List String :=
  ((catalog.filter (fun p => p.id != "")).map (fun p => p.id)).dedup

/-- src/agent/llm_client.py line 45: product_lookup maps each non-empty id to
its product; a dict comprehension lets later entries overwrite earlier ones,
hence the search over the reversed list. -/
def productLookup (catalog : List Product) (id : String) : Option Product :=
  ((catalog.filter (fun p => p.id != "")).reverse).find? (fun p => p.id == id)

/-- src/agent/core.py lines 98-100: the LLM client's catalog is replaced by
the retrieved products only when the retrieved list is non-empty. -/
def updateCatalogStep (current retrieved : List Product) : List Product :=
  if retrieved.isEmpty then current else retrieved

/-- One entry of the validated recommendations list.  Field values stay Json
because _validate_response passes non-string values through unchanged. -/
structure RecItem where
  product_id : Json
  product_name : Json
  reasoning : Json

/-- The dict returned by LLMClient.get_recommendations. -/
structure RecResult where
  recommendations : List RecItem
  summary : Json
  follow_up_questions : List String

/-- Whether a JSON value is hashable in Python (arrays and objects model
lists and dicts, which are not). -/
def pyHashable : Json → Bool
  | .arr _ => false
  | .obj _ => false
  | _ => true

/-- src/agent/llm_client.py lines 119-126: the tail of the loop body for an
entry whose id check passed: when the supplied name is falsy, the test
product_id in self.product_lookup hashes the id first (a TypeError, modelled
as .error, on an unhashable id) and then backfills the name from the
catalog; finally the three fields are defaulted through Python or. -/
def processRecNamed (catalog : List Product)
    (product_id product_name reasoning : Json) : Except Unit (Option RecItem) :=
  if !product_name.truthy then
    if !(pyHashable product_id) then .error ()
    else
      let product_name :=
        match product_id with
        | .str s =>
          match productLookup catalog s with
          | some p => Json.str p.name
          | none => product_name
        | _ => product_name
      .ok (some { product_id := pyOr product_id (.str "unknown_id"),
                  product_name := pyOr product_name (.str "Unknown Product"),
                  reasoning := pyOr reasoning (.str "Recommended based on your preferences") })
  else
    .ok (some { product_id := pyOr product_id (.str "unknown_id"),
                product_name := pyOr product_name (.str "Unknown Product"),
                reasoning := pyOr reasoning (.str "Recommended based on your preferences") })

/-- src/agent/llm_client.py lines 107-126: the body of the for-loop in
_validate_response processing one raw recommendation entry.  .ok none
models the continue paths (entry not a dict, or id rejected against a
non-empty catalog); .error models a raised TypeError: with a non-empty
catalog the test product_id in self.valid_product_ids hashes the id, which
raises on an unhashable value (with an empty catalog the or short-circuits
before the membership test). -/
def processRec (catalog : List Product) (rec : Json) : Except Unit (Option RecItem) :=
  match rec with
  | .obj rfs =>
    let product_id := jGetD rfs "product_id" (.str "")
    let reasoning := jGetD rfs "reasoning" (.str "")
    let product_name := jGetD rfs "product_name" (.str "")
    if (validIds catalog).isEmpty then
      processRecNamed catalog product_id product_name reasoning
    else if !(pyHashable product_id) then .error ()
    else if (match product_id with
             | .str s => (validIds catalog).contains s
             | _ => false) then
      processRecNamed catalog product_id product_name reasoning
    else .ok none
  | _ => .ok none

/-- The validation loop over the at most five raw entries: kept entries are
appended in order, a raised TypeError aborts the whole attempt. -/
def processRecs (catalog : List Product) : List Json → Except Unit (List RecItem)
  | [] => .ok []
  | r :: rs =>
    match processRec catalog r with
    | .error () => .error ()
    | .ok none => processRecs catalog rs
    | .ok (some e) =>
      match processRecs catalog rs with
      | .error () => .error ()
      | .ok es => .ok (e :: es)

/-- src/agent/llm_client.py lines 100-155 (_validate_response).  none models
an exception propagating to the retry loop: the AttributeError when the
parsed value is not a dict, or a TypeError from an unhashable product id. -/
def validateResponse (catalog : List Product) (parsed : Json) : Option RecResult :=
  match parsed with
  | .obj fs =>
    let recsJ := jGetD fs "recommendations" (.arr [])
    let recsE : Except Unit (List RecItem) :=
      match recsJ with
      | .arr xs => processRecs catalog (xs.take MAX_RECOMMENDATIONS)
      | _ => .ok []
    match recsE with
    | .error () => none
    | .ok recs0 =>
      let recommendations :=
        if recs0.isEmpty && !(validIds catalog).isEmpty then
          let firstId := (validIds catalog).headD ""
          let firstName :=
            match productLookup catalog firstId with
            | some p => p.name
            | none => "Unknown Product"
          [{ product_id := .str firstId, product_name := .str firstName,
             reasoning := .str "Fallback recommendation" }]
        else recs0
      let fupJ := jGetD fs "follow_up_questions" (.arr [])
      let follow_up_questions :=
        match fupJ with
        | .arr qs => (qs.take 3).filterMap (fun q =>
            if q.truthy && pyStrip (pyStr q) != "" then some (pyStrip (pyStr q)) else none)
        | _ => []
      some { recommendations := recommendations,
             summary := jGetD fs "summary" (.str "Product recommendations based on your query"),
             follow_up_questions := follow_up_questions }
  | _ => none

/-- src/agent/llm_client.py lines 157-178 (_fallback_response). -/
def fallbackResponse (catalog : List Product) : RecResult :=
  let recommendations :=
    if !(validIds catalog).isEmpty then
      let firstId := (validIds catalog).headD ""
      let firstName :=
        match productLookup catalog firstId with
        | some p => p.name
        | none => "Unknown Product"
      [{ product_id := Json.str firstId, product_name := Json.str firstName,
         reasoning := Json.str "Fallback recommendation due to processing error" }]
    else []
  { recommendations := recommendations,
    summary := .str "Unable to process request fully.",
    follow_up_questions :=
      ["Would you like to see more options?",
       "Do you have a specific budget in mind?",
       "Are there any particular features you\x27re looking for?"] }

/-- Outcome of one attempt of the model-generation collaborator followed by
JSON extraction and parsing (llm.invoke, _extract_json, json.loads in
get_recommendations): err covers a raised transport error as well as
unparsable text; ok carries the parsed JSON value.  Quantifying over all
outcome sequences covers every collaborator behaviour. -/
inductive GenOutcome where
  | err
  | ok (parsed : Json)

/-- src/agent/llm_client.py lines 62-88: the retry loop of
get_recommendations over a fixed list of attempt outcomes; any exception
(transport, parse, or validation) falls through to the next attempt, and
exhaustion returns the hard-coded fallback. -/
def runAttempts (catalog : List Product) : List GenOutcome → RecResult
  | [] => fallbackResponse catalog
  | o :: rest =>
    match o with
    | .err => runAttempts catalog rest
    | .ok j =>
      match validateResponse catalog j with
      | some r => r
      | none => runAttempts catalog rest

/-- src/agent/llm_client.py lines 51-88 (get_recommendations): total
attempts are max_retries + 1; the prompt argument only feeds the external
call and is absorbed into the attempts function. -/
def getRecommendations (catalog : List Product) (attempts : Nat → GenOutcome)
    (maxRetries : Nat) : RecResult :=
  runAttempts catalog ((List.range (maxRetries + 1)).map attempts)

/-- An accumulated (or extractor-produced) filter dict with the seven fixed
keys; Option.none models an absent key or a stored Python None, and the
set-valued keys hold the stored lists. -/
structure Filters where
  price_min : Option ℚ := none
  price_max : Option ℚ := none
  brand_include : List String := []
  brand_exclude : List String := []
  category : Option String := none
  features : List String := []
  rating_min : Option ℚ := none
deriving DecidableEq

/-- The empty filter dict, as produced by ContextManager.clear_filters
(src/agent/context_manager.py lines 65-67). -/
def emptyFilters : Filters := {}

/-- An incoming value for one of the three set-valued keys of update_filters:
absent/None, a single scalar (coerced to a one-element list by the code), or
a list. -/
inductive SetIncoming where
  | nil
  | scalar (s : String)
  | listv (xs : List String)
deriving DecidableEq

/-- The values an incoming set-valued entry contributes. -/
def SetIncoming.vals : SetIncoming → List String
  | .nil => []
  | .scalar s => [s]
  | .listv xs => xs

/-- The dict passed to ContextManager.update_filters; set-valued keys may
carry a scalar where a list is expected. -/
structure IncomingFilters where
  price_min : Option ℚ := none
  price_max : Option ℚ := none
  brand_include : SetIncoming := .nil
  brand_exclude : SetIncoming := .nil
  category : Option String := none
  features : SetIncoming := .nil
  rating_min : Option ℚ := none
deriving DecidableEq

/-- src/agent/context_manager.py lines 34-38: for a set-valued key a non-None
incoming value is coerced to a list if scalar, appended to the existing list
and deduplicated through list(set(...)); Python's hash-ordered set is
modelled as first-occurrence dedup, sound for the order-independent
properties proved below.  A None/absent incoming value leaves the stored
list untouched (and un-deduplicated). -/
def mergeSetKey (existing : List String) (v : SetIncoming) : List String :=
  match v with
  | .nil => existing
  | .scalar s => (existing ++ [s]).dedup
  | .listv xs => (existing ++ xs).dedup

/-- src/agent/context_manager.py lines 39-41: a non-None incoming scalar
overrides, None/absent leaves the existing value. -/
def overrideScalar {α : Type} (existing incoming : Option α) : Option α :=
  match incoming with
  | some v => some v
  | none => existing

/-- src/agent/context_manager.py lines 29-41 (ContextManager.update_filters),
key by key over the seven known keys. -/
def updateFilters (acc : Filters) (inc : IncomingFilters) : Filters :=
  { price_min := overrideScalar acc.price_min inc.price_min,
    price_max := overrideScalar acc.price_max inc.price_max,
    brand_include := mergeSetKey acc.brand_include inc.brand_include,
    brand_exclude := mergeSetKey acc.brand_exclude inc.brand_exclude,
    category := overrideScalar acc.category inc.category,
    features := mergeSetKey acc.features inc.features,
    rating_min := overrideScalar acc.rating_min inc.rating_min }

/-- src/agent/core.py lines 76-84: the intent-driven update of the
accumulated filters in Agent.process (REFINE merges, SEARCH clears then
merges, anything else leaves the context untouched). -/
def applyIntentTransition (intent : String) (acc : Filters)
    (extracted : IncomingFilters) : Filters :=
  if intent = "REFINE" then updateFilters acc extracted
  else if intent = "SEARCH" then updateFilters emptyFilters extracted
  else acc

/-- One conversation turn as stored by ContextManager.add_turn. -/
structure Turn where
  user : String
  agent : String
deriving DecidableEq

/-- src/config.py line 35: MAX_CONVERSATION_HISTORY = 10. -/
def MAX_CONVERSATION_HISTORY : Nat := 10

/-- src/agent/context_manager.py lines 16-26 (ContextManager.add_turn):
append, then keep only the last MAX_CONVERSATION_HISTORY turns. -/
def addTurn (history : List Turn) (userQuery agentResponse : String) : List Turn :=
  let h := history ++ [⟨userQuery, agentResponse⟩]
  if MAX_CONVERSATION_HISTORY < h.length then
    h.drop (h.length - MAX_CONVERSATION_HISTORY)
  else h

/-- The history after a sequence of add_turn calls starting from the empty
history of a fresh ContextManager. -/
def runTurns (ts : List Turn) : List Turn :=
  ts.foldl (fun h t => addTurn h t.user t.agent) []

/-- Python membership of a JSON value in a set of strings.  Hashable
non-string values are simply not members; an unhashable value (array/object)
would raise TypeError in Python, so theorems using this restrict product ids
to strings. -/
def pyInStrSet (j : Json) (s : List String) : Bool :=
  match j with
  | .str t => s.contains t
  | _ => false

/-- src/agent/core.py lines 116-125: drop recommendations whose product id is
rejected, but fall back to the original list when that would empty it. -/
def applyRejectionFilter (recs : List RecItem) (rejectedIds : List String) : List RecItem :=
  let filteredRecs := recs.filter (fun r => !(pyInStrSet r.product_id rejectedIds))
  if filteredRecs.isEmpty then recs else filteredRecs

/-- src/agent/intent_classifier.py lines 97-117
(IntentClassifier._fallback_classify): the deterministic heuristic used when
the model call or its parsing fails.  Word tests are Python substring tests
on the lowercased query; the question mark is checked on the original
query. -/
def fallbackClassify (query : String) (history : List Turn) : String × ℚ :=
  let queryLower := pyLower query
  if ["hello", "hi", "hey", "thanks", "thank you"].any (fun g => pyIn g queryLower) then
    ("CHITCHAT", 0.7)
  else if (["what", "how", "why", "explain", "tell me"].any (fun cw => pyIn cw queryLower))
      && pyIn "?" query then
    ("CLARIFY", 0.6)
  else if (["also", "and", "but", "except", "not", "without"].any (fun rw => pyIn rw queryLower))
      && !history.isEmpty then
    ("REFINE", 0.6)
  else
    ("SEARCH", 0.5)

/-- One value of the VAGUE_TERMS lexicon: the partial filter fragment a vague
term maps to. -/
structure VagueMapping where
  price_max : Option ℚ := none
  price_min : Option ℚ := none
  rating_min : Option ℚ := none
deriving DecidableEq

/-- src/config.py lines 23-32: the vague-term lexicon, in dict insertion
order. -/
def VAGUE_TERMS : List (String × VagueMapping) :=
  [("cheap", { price_max := some 50 }),
   ("affordable", { price_max := some 100 }),
   ("expensive", { price_min := some 500 }),
   ("premium", { price_min := some 300 }),
   ("budget", { price_max := some 75 }),
   ("high-end", { price_min := some 400 }),
   ("top-rated", { rating_min := some 4.5 }),
   ("best", { rating_min := some 4 })]

/-- src/agent/filter_extractor.py lines 120-127: one iteration of the
vague-term loop; each fragment field is applied only when the term occurs in
the lowercased query and the corresponding filter is still unset. -/
def applyVagueTerm (filters : Filters) (queryLower term : String)
    (mapping : VagueMapping) : Filters :=
  if pyIn term queryLower then
    let filters :=
      match mapping.price_max with
      | some v => if filters.price_max = none then { filters with price_max := some v } else filters
      | none => filters
    let filters :=
      match mapping.price_min with
      | some v => if filters.price_min = none then { filters with price_min := some v } else filters
      | none => filters
    match mapping.rating_min with
    | some v => if filters.rating_min = none then { filters with rating_min := some v } else filters
    | none => filters
  else filters

/-- src/agent/filter_extractor.py lines 116-129
(FilterExtractor._apply_vague_terms): fold the lexicon over the filters.
This runs only on the successful primary-extraction path (line 92), not in
the regex fallback. -/
def applyVagueTerms (query : String) (filters : Filters) : Filters :=
  let queryLower := pyLower query
  VAGUE_TERMS.foldl (fun f tm => applyVagueTerm f queryLower tm.1 tm.2) filters

/-- Value of a decimal numeral given as digit characters. -/
def digitsToNat (ds : List Char) : Nat :=
  ds.foldl (fun n c => 10 * n + (c.toNat - 48)) 0

/-- Numeric value of an integer part and a fractional part captured by the
price/rating regexes. -/
def numVal (intPart fracPart : List Char) : ℚ :=
  (digitsToNat intPart : ℚ) + (digitsToNat fracPart : ℚ) / ((10 : ℚ) ^ fracPart.length)

/-- In-progress token of the number scanner. -/
inductive CurNum where
  | intPart (ds : List Char)
  | afterDot (ds : List Char)
  | frac (ds fs : List Char)

/-- One step of the left-to-right scanner realising
re.findall of pattern dollar-sign? digits (dot digits)? — maximal digit runs
with one optional fractional part, non-overlapping, as used on the raw query
in _regex_extract (src/agent/filter_extractor.py line 154-155). -/
def numStep (st : List (List Char × List Char) × Option CurNum) (c : Char) :
    List (List Char × List Char) × Option CurNum :=
  let (found, cur) := st
  match cur with
  | none => if c.isDigit then (found, some (.intPart [c])) else (found, none)
  | some (.intPart ds) =>
    if c.isDigit then (found, some (.intPart (ds ++ [c])))
    else if c = '.' then (found, some (.afterDot ds))
    else (found ++ [(ds, [])], none)
  | some (.afterDot ds) =>
    if c.isDigit then (found, some (.frac ds [c]))
    else (found ++ [(ds, [])], none)
  | some (.frac ds fs) =>
    if c.isDigit then (found, some (.frac ds (fs ++ [c])))
    else (found ++ [(ds, fs)], none)

/-- All numbers the price regex finds in a string, in order. -/
def findNumbers (s : String) : List ℚ :=
  let scanned := s.toList.foldl numStep ([], none)
  let found :=
    match scanned.2 with
    | none => scanned.1
    | some (.intPart ds) => scanned.1 ++ [(ds, [])]
    | some (.afterDot ds) => scanned.1 ++ [(ds, [])]
    | some (.frac ds fs) => scanned.1 ++ [(ds, fs)]
  found.map (fun t => numVal t.1 t.2)

/-- Maximal run of digit characters at the head of a list, with the rest. -/
def digitRun : List Char → List Char × List Char
  | [] => ([], [])
  | c :: cs =>
    if c.isDigit then
      let r := digitRun cs
      (c :: r.1, r.2)
    else ([], c :: cs)

/-- Attempt of the rating regex — digits (dot digits)? whitespace*
(star or rating) — anchored at the head of the list: number, optional
fraction, skipped whitespace, then one of the two literals (maximal munch is
faithful here because neither literal starts with a digit). -/
def tryRatingAt (l : List Char) : Option ℚ :=
  let r := digitRun l
  let withFrac :=
    match r.2 with
    | '.' :: rest =>
      match rest with
      | d :: _ =>
        if d.isDigit then
          let fr := digitRun rest
          (fr.1, fr.2)
        else ([], r.2)
      | [] => ([], r.2)
    | _ => ([], r.2)
  let afterSpaces := withFrac.2.dropWhile Char.isWhitespace
  if r.1.isEmpty then none
  else if listStartsWith "star".toList afterSpaces
      || listStartsWith "rating".toList afterSpaces then
    some (numVal r.1 withFrac.1)
  else none

/-- Leftmost match of the rating regex: positions are tried left to right,
skipping positions inside a digit run already tried (re.findall starts
matches only at the leftmost position where the attempt succeeds, and
ratings[0] keeps just that first match). -/
def firstRatingAux (prevIsDigit : Bool) : List Char → Option ℚ
  | [] => none
  | c :: cs =>
    if c.isDigit && !prevIsDigit then
      match tryRatingAt (c :: cs) with
      | some q => some q
      | none => firstRatingAux true cs
    else firstRatingAux c.isDigit cs

/-- First rating the rating regex finds (applied to the lowercased query in
_regex_extract; only ratings[0] is used by the code). -/
def firstRating (s : String) : Option ℚ :=
  firstRatingAux false s.toList

/-- src/agent/filter_extractor.py lines 148-171
(FilterExtractor._regex_extract): the regex-based fallback extraction run
when the primary extraction call fails.  It only reads price and rating
patterns; the vague-term lexicon is not consulted here. -/
def regexExtract (query : String) (existingFilters : Filters) : Filters :=
  let queryLower := pyLower query
  let filters := existingFilters
  let prices := findNumbers query
  let filters :=
    match prices with
    | [] => filters
    | p :: ps =>
      if pyIn "under" queryLower || pyIn "less than" queryLower
          || pyIn "below" queryLower then
        { filters with price_max := some (ps.foldl min p) }
      else if pyIn "over" queryLower || pyIn "more than" queryLower
          || pyIn "above" queryLower then
        { filters with price_min := some (ps.foldl max p) }
      else if ps.isEmpty then
        { filters with price_max := some p }
      else filters
  match firstRating queryLower with
  | some r => { filters with rating_min := some r }
  | none => filters

/-- One ChromaDB predicate: either a plain field-equals-value entry or a
field with a comparison operator entry, as appended to the filters list in
_build_chroma_filters. -/
inductive ChromaCond where
  | eq (field : String) (v : Json)
  | cmp (field : String) (op : String) (v : Json)

/-- The field a ChromaDB predicate constrains. -/
def ChromaCond.field : ChromaCond → String
  | .eq f _ => f
  | .cmp f _ _ => f

/-- The final where clause of _build_chroma_filters: a single predicate or a
conjunction of several; the Python None result (no filter at all) is
Option.none of this type. -/
inductive ChromaWhere where
  | single (c : ChromaCond)
  | conj (cs : List ChromaCond)

/-- src/agent/rag_retriever.py line 228: string filter values from the raw
LLM extraction are trimmed and lowercased. -/
def normalizeRawValue (v : Json) : Json :=
  match v with
  | .str s => .str (pyLower (pyStrip s))
  | _ => v

/-- src/agent/rag_retriever.py lines 204-229: predicates contributed by the
raw LLM-extracted attributes (None values skipped, the age key expanded
against the age_min/age_max metadata, operator dicts passed through, plain
values normalized).  A non-dict age value would raise in Python and is
modelled as contributing nothing; the theorems below only instantiate this
with the empty dict. -/
def rawConds (raw : List (String × Json)) : List ChromaCond :=
  raw.foldl (fun acc kv =>
    match kv.2 with
    | .null => acc
    | .obj ops =>
      if kv.1 = "age" then
        if (ops.lookup "$gte").isSome && (ops.lookup "$lte").isSome then
          acc ++ [.cmp "age_max" "$lte" (jGetD ops "$lte" .null),
                  .cmp "age_min" "$gte" (jGetD ops "$gte" .null)]
        else if (ops.lookup "$eq").isSome then
          acc ++ [.cmp "age_min" "$lte" (jGetD ops "$eq" .null),
                  .cmp "age_max" "$gte" (jGetD ops "$eq" .null)]
        else if (ops.lookup "$lt").isSome then
          acc ++ [.cmp "age_min" "$lt" (jGetD ops "$lt" .null)]
        else if (ops.lookup "$gt").isSome then
          acc ++ [.cmp "age_max" "$gt" (jGetD ops "$gt" .null)]
        else acc
      else
        acc ++ ops.map (fun onv => ChromaCond.cmp kv.1 onv.1 onv.2)
    | v =>
      if kv.1 = "age" then acc
      else acc ++ [.eq kv.1 (normalizeRawValue v)]) []

/-- Python truthiness of an optional number (an agent_filters.get(key)
check): false for absent/None and for 0. -/
def truthyOptQ : Option ℚ → Bool
  | some q => q != 0
  | none => false

/-- Python truthiness of an optional string: false for absent/None and for
the empty string. -/
def truthyOptS : Option String → Bool
  | some s => s != ""
  | none => false

/-- src/agent/rag_retriever.py lines 232-255: predicates contributed by the
agent's accumulated filters.  Each key is gated by Python truthiness of
agent_filters.get(key); brand_include uses only its first value, lowercased;
brand_exclude is explicitly skipped by the source (post-retrieval filtering
noted in a comment there). -/
def agentConds (f : Filters) : List ChromaCond :=
  (if truthyOptQ f.price_min then [ChromaCond.cmp "price" "$gte" (.num (f.price_min.getD 0))] else [])
  ++ (if truthyOptQ f.price_max then [ChromaCond.cmp "price" "$lte" (.num (f.price_max.getD 0))] else [])
  ++ (if truthyOptS f.category then [ChromaCond.eq "category" (.str (pyLower (f.category.getD "")))] else [])
  ++ (if !f.brand_include.isEmpty then [ChromaCond.eq "brand" (.str (pyLower (f.brand_include.headD "")))] else [])
  ++ (if truthyOptQ f.rating_min then [ChromaCond.cmp "rating" "$gte" (.num (f.rating_min.getD 0))] else [])

/-- src/agent/rag_retriever.py lines 197-263 (_build_chroma_filters): raw
plus agent predicates assembled into None, a single predicate, or an $and
conjunction.  Option.none on the agent side models passing agent_filters as
None (a falsy empty dict contributes no predicates either way). -/
def buildChromaFilters (raw : List (String × Json)) (agentFilters : Option Filters) :
    Option ChromaWhere :=
  let conds := rawConds raw ++
    (match agentFilters with
     | some f => agentConds f
     | none => [])
  match conds with
  | [] => none
  | [c] => some (.single c)
  | cs => some (.conj cs)

/-- The list of predicates a where clause carries. -/
def whereConds : Option ChromaWhere → List ChromaCond
  | none => []
  | some (.single c) => [c]
  | some (.conj cs) => cs

/-- How many predicates of a where clause constrain the price field. -/
def pricePredCount (w : Option ChromaWhere) : Nat :=
  ((whereConds w).filter (fun c => c.field = "price")).length

/-- Whether a field of a parsed JSON object is absent or a string. -/
def strOrAbsent (fields : List (String × Json)) (key : String) : Bool :=
  match fields.lookup key with
  | some v => v.isStr
  | none => true

/-- Well-typedness of one raw recommendation entry: the three fields it
supplies, if present, are strings (non-dict entries are dropped by the code
and need no constraint). -/
def wtRecJson : Json → Bool
  | .obj rfs => strOrAbsent rfs "product_id" && strOrAbsent rfs "product_name"
      && strOrAbsent rfs "reasoning"
  | _ => true

/-- Well-typedness of a parsed model reply: its summary, if present, is a
string, and each supplied recommendation entry is well typed. -/
def wtParsed : Json → Bool
  | .obj fs =>
    strOrAbsent fs "summary" &&
    (match fs.lookup "recommendations" with
     | some (.arr xs) => xs.all wtRecJson
     | _ => true)
  | _ => true

/-- Well-typedness of one generation attempt's outcome. -/
def wtOutcome : GenOutcome → Bool
  | .err => true
  | .ok j => wtParsed j

/-- Catalog sanity as guaranteed by both retrievers: every product with a
usable id has a non-empty name (both retrievers substitute a placeholder
name when the upstream data lacks one). -/
def GoodCatalog (catalog : List Product) : Prop :=
  ∀ p ∈ catalog, p.id ≠ "" → p.name ≠ ""

/-- Structural validity of a recommendation result: at most five
recommendations, each field a non-empty string, a string summary, and at
most three follow-up questions. -/
def GoodResult (r : RecResult) : Prop :=
  r.recommendations.length ≤ 5 ∧
  (∀ e ∈ r.recommendations,
    e.product_id.isNonemptyStr = true ∧ e.product_name.isNonemptyStr = true ∧
    e.reasoning.isNonemptyStr = true) ∧
  r.summary.isStr = true ∧
  r.follow_up_questions.length ≤ 3

/-! ## Helper lemmas -/

/-- Membership in a merged set-valued key is membership in either side. -/
theorem mergeSetKey_mem (ex : List String) (v : SetIncoming) (x : String) :
    x ∈ mergeSetKey ex v ↔ x ∈ ex ∨ x ∈ v.vals := by
  cases v <;> simp [mergeSetKey, SetIncoming.vals, List.mem_dedup]

/-- Merging preserves freedom from duplicates of the stored list. -/
theorem mergeSetKey_nodup (ex : List String) (v : SetIncoming) (h : ex.Nodup) :
    (mergeSetKey ex v).Nodup := by
  cases v with
  | nil => exact h
  | scalar s => exact List.nodup_dedup _
  | listv xs => exact List.nodup_dedup _

/-- One add_turn step on the folded history. -/
theorem runTurns_append (ts : List Turn) (t : Turn) :
    runTurns (ts ++ [t]) = addTurn (runTurns ts) t.user t.agent := by
  unfold runTurns
  rw [List.foldl_append]
  rfl

/-- The history after any sequence of add_turn calls is exactly the suffix of
the appended turns of length at most MAX_CONVERSATION_HISTORY. -/
theorem runTurns_drop (ts : List Turn) :
    runTurns ts = ts.drop (ts.length - MAX_CONVERSATION_HISTORY) := by
  induction ts using List.reverseRecOn with
  | nil => rfl
  | append_singleton ts t ih =>
    rw [runTurns_append, ih, addTurn]
    simp only [MAX_CONVERSATION_HISTORY] at *
    by_cases hlen : ts.length < 10
    · have h0 : ts.length - 10 = 0 := by omega
      rw [h0, List.drop_zero]
      have h1 : ¬ (10 < (ts ++ [(⟨t.user, t.agent⟩ : Turn)]).length) := by
        simp only [List.length_append, List.length_cons, List.length_nil]
        omega
      simp only [if_neg h1]
      have h2 : (ts ++ [t]).length - 10 = 0 := by
        simp only [List.length_append, List.length_cons, List.length_nil]
        omega
      rw [h2, List.drop_zero]
    · have h1 : 10 < (ts.drop (ts.length - 10) ++ [(⟨t.user, t.agent⟩ : Turn)]).length := by
        simp only [List.length_append, List.length_drop, List.length_cons, List.length_nil]
        omega
      simp only [if_pos h1]
      have h2 : (ts.drop (ts.length - 10) ++ [(⟨t.user, t.agent⟩ : Turn)]).length - 10 = 1 := by
        simp only [List.length_append, List.length_drop, List.length_cons, List.length_nil]
        omega
      rw [h2]
      have h3 : (ts.drop (ts.length - 10) ++ [(⟨t.user, t.agent⟩ : Turn)]).drop 1
          = (ts.drop (ts.length - 10)).drop 1 ++ [(⟨t.user, t.agent⟩ : Turn)] := by
        refine List.drop_append_of_le_length ?_
        simp only [List.length_drop]
        omega
      rw [h3, List.drop_drop]
      have h4 : (ts ++ [t]).drop ((ts ++ [t]).length - 10)
          = ts.drop ((ts ++ [t]).length - 10) ++ [t] := by
        refine List.drop_append_of_le_length ?_
        simp only [List.length_append, List.length_cons, List.length_nil]
        omega
      rw [h4]
      have h5 : ts.length - 10 + 1 = (ts ++ [t]).length - 10 := by
        simp only [List.length_append, List.length_cons, List.length_nil]
        omega
      rw [h5]

/-- The where clause assembled by _build_chroma_filters carries exactly the
raw predicates followed by the agent predicates. -/
theorem whereConds_build (raw : List (String × Json)) (ag : Option Filters) :
    whereConds (buildChromaFilters raw ag) =
      rawConds raw ++ (match ag with | some f => agentConds f | none => []) := by
  unfold buildChromaFilters
  rcases hc : rawConds raw ++ (match ag with | some f => agentConds f | none => []) with _ | ⟨c, cs⟩
  · rw [hc]
    rfl
  · rw [hc]
    cases cs <;> rfl

/-- A JSON value with isStr true is literally some string. -/
theorem isStr_iff (j : Json) : j.isStr = true ↔ ∃ s, j = .str s := by
  cases j <;> simp [Json.isStr]

/-- Members of the valid-id set are non-empty strings. -/
theorem validIds_nonempty_str (c : List Product) (x : String) (h : x ∈ validIds c) :
    x ≠ "" := by
  simp only [validIds, List.mem_dedup, List.mem_map, List.mem_filter, bne_iff_ne,
    ne_eq] at h
  obtain ⟨p, ⟨_, hid⟩, rfl⟩ := h
  exact hid

/-- Every valid id resolves through product_lookup to a product of the
catalog carrying that id. -/
theorem productLookup_of_mem_validIds (c : List Product) (x : String)
    (h : x ∈ validIds c) :
    ∃ p, productLookup c x = some p ∧ p.id = x ∧ p ∈ c := by
  have hx : ∃ p ∈ c.filter (fun p => p.id != ""), p.id = x := by
    simp only [validIds, List.mem_dedup, List.mem_map] at h
    obtain ⟨p, hp, rfl⟩ := h
    exact ⟨p, hp, rfl⟩
  unfold productLookup
  rcases hfind : ((c.filter (fun p => p.id != "")).reverse).find? (fun p => p.id == x)
      with _ | p
  · exfalso
    obtain ⟨p, hp, hpx⟩ := hx
    have := List.find?_eq_none.1 hfind p (by simpa [List.mem_reverse] using hp)
    simp [hpx] at this
  · have hpx : p.id = x := by simpa using List.find?_some hfind
    have hpmem : p ∈ c := by
      have := List.mem_of_find?_eq_some hfind
      rw [List.mem_reverse] at this
      exact (List.mem_filter.1 this).1
    exact ⟨p, hfind, hpx, hpmem⟩

/-- The head taken as the fallback product id belongs to the valid-id set
when that set is non-empty. -/
theorem validIds_headD_mem (c : List Product) (h : (validIds c).isEmpty = false) :
    (validIds c).headD "" ∈ validIds c := by
  rcases hv : validIds c with _ | ⟨a, l⟩
  · rw [hv] at h
    simp at h
  · simp

/-- A Python or of a string against a non-empty string default always yields
a non-empty string. -/
theorem pyOr_isStr_nonempty (X : Json) (d : String) (hX : X.isStr = true)
    (hd : d ≠ "") : (pyOr X (.str d)).isNonemptyStr = true := by
  obtain ⟨t, rfl⟩ := (isStr_iff X).1 hX
  by_cases ht : t = "" <;> simp [pyOr, Json.truthy, Json.isNonemptyStr, ht, hd]

/-- A dict get whose stored value is absent-or-string, against a string
default, yields a string. -/
theorem jGetD_isStr (fs : List (String × Json)) (k : String) (d : String)
    (h : strOrAbsent fs k = true) : (jGetD fs k (.str d)).isStr = true := by
  unfold strOrAbsent at h
  unfold jGetD
  rcases hlk : fs.lookup k with _ | v
  · rfl
  · rw [hlk] at h
    exact h

/-- The defaulting-and-name-backfill tail keeps only entries whose three
fields are non-empty strings, when the supplied values are strings. -/
theorem processRecNamed_good (c : List Product) (pid pn rs : Json) (e : RecItem)
    (hpid : pid.isStr = true) (hpn : pn.isStr = true) (hrs : rs.isStr = true)
    (h : processRecNamed c pid pn rs = .ok (some e)) :
    e.product_id.isNonemptyStr = true ∧ e.product_name.isNonemptyStr = true ∧
    e.reasoning.isNonemptyStr = true := by
  unfold processRecNamed at h
  split at h
  · split at h
    · exact absurd h (by simp)
    · obtain rfl := Option.some.inj (Except.ok.inj h)
      refine ⟨pyOr_isStr_nonempty _ _ hpid (by decide), ?_,
        pyOr_isStr_nonempty _ _ hrs (by decide)⟩
      refine pyOr_isStr_nonempty _ _ ?_ (by decide)
      split
      · split
        · rfl
        · exact hpn
      · exact hpn
  · obtain rfl := Option.some.inj (Except.ok.inj h)
    exact ⟨pyOr_isStr_nonempty _ _ hpid (by decide),
      pyOr_isStr_nonempty _ _ hpn (by decide),
      pyOr_isStr_nonempty _ _ hrs (by decide)⟩

/-- Each entry the validation loop keeps has non-empty string fields,
provided the raw entry's supplied fields were strings. -/
theorem processRec_good (c : List Product) (rec : Json) (e : RecItem)
    (hwt : wtRecJson rec = true) (h : processRec c rec = .ok (some e)) :
    e.product_id.isNonemptyStr = true ∧ e.product_name.isNonemptyStr = true ∧
    e.reasoning.isNonemptyStr = true := by
  cases rec with
  | obj rfs =>
    simp only [wtRecJson, Bool.and_eq_true] at hwt
    obtain ⟨⟨h1, h2⟩, h3⟩ := hwt
    have hpid := jGetD_isStr rfs "product_id" "" h1
    have hpn := jGetD_isStr rfs "product_name" "" h2
    have hrs := jGetD_isStr rfs "reasoning" "" h3
    simp only [processRec] at h
    split at h
    · exact processRecNamed_good c _ _ _ e hpid hpn hrs h
    · split at h
      · exact absurd h (by simp)
      · split at h
        · exact processRecNamed_good c _ _ _ e hpid hpn hrs h
        · exact absurd h (by simp)
  | null => exact absurd h (by simp [processRec])
  | bool b => exact absurd h (by simp [processRec])
  | num q => exact absurd h (by simp [processRec])
  | str s => exact absurd h (by simp [processRec])
  | arr xs => exact absurd h (by simp [processRec])

/-- The validation loop keeps at most as many entries as it was given. -/
theorem processRecs_length (c : List Product) (l : List Json) (es : List RecItem)
    (h : processRecs c l = .ok es) : es.length ≤ l.length := by
  induction l generalizing es with
  | nil =>
    obtain rfl := Except.ok.inj h
    simp
  | cons r rs ih =>
    simp only [processRecs] at h
    split at h
    · exact absurd h (by simp)
    · exact le_trans (ih es h) (by simp)
    · rename_i e0 hrec
      split at h
      · exact absurd h (by simp)
      · rename_i es0 hes0
        obtain rfl := Except.ok.inj h
        simpa using ih es0 hes0

/-- Every entry the validation loop keeps comes from one of the raw entries
it was given. -/
theorem processRecs_mem (c : List Product) (l : List Json) (es : List RecItem)
    (e : RecItem) (h : processRecs c l = .ok es) (he : e ∈ es) :
    ∃ rec ∈ l, processRec c rec = .ok (some e) := by
  induction l generalizing es with
  | nil =>
    obtain rfl := Except.ok.inj h
    simp at he
  | cons r rs ih =>
    simp only [processRecs] at h
    split at h
    · exact absurd h (by simp)
    · obtain ⟨rec, hm, hp⟩ := ih es h he
      exact ⟨rec, List.mem_cons_of_mem r hm, hp⟩
    · rename_i e0 hrec
      split at h
      · exact absurd h (by simp)
      · rename_i es0 hes0
        obtain rfl := Except.ok.inj h
        rcases List.mem_cons.1 he with rfl | hm
        · exact ⟨r, List.mem_cons_self r rs, hrec⟩
        · obtain ⟨rec, hm2, hp⟩ := ih es0 hes0 hm
          exact ⟨rec, List.mem_cons_of_mem r hm2, hp⟩

/-- The synthesized single fallback recommendation is well formed over a
non-empty well-named catalog. -/
theorem synth_fields_good (c : List Product) (hne : (validIds c).isEmpty = false)
    (hgc : GoodCatalog c) :
    (Json.str ((validIds c).headD "")).isNonemptyStr = true ∧
    (Json.str (match productLookup c ((validIds c).headD "") with
      | some p => p.name
      | none => "Unknown Product")).isNonemptyStr = true := by
  have hmem := validIds_headD_mem c hne
  have hid := validIds_nonempty_str c _ hmem
  obtain ⟨p, hlk, hpid, hpc⟩ := productLookup_of_mem_validIds c _ hmem
  constructor
  · simpa [Json.isNonemptyStr] using hid
  · rw [hlk]
    have hname : p.name ≠ "" := hgc p hpc (hpid ▸ hid)
    simpa [Json.isNonemptyStr] using hname

/-- The hard-coded fallback response is structurally valid over a well-named
catalog. -/
theorem fallbackResponse_good (c : List Product) (hgc : GoodCatalog c) :
    GoodResult (fallbackResponse c) := by
  unfold GoodResult fallbackResponse
  rcases hv : (validIds c).isEmpty with _ | _
  · obtain ⟨hid, hname⟩ := synth_fields_good c hv hgc
    refine ⟨by simp, ?_, rfl, by simp⟩
    intro e he
    simp only [hv, Bool.not_false, if_pos] at he
    simp only [List.mem_singleton] at he
    subst he
    exact ⟨hid, hname, rfl⟩
  · refine ⟨by simp [hv], ?_, rfl, by simp⟩
    intro e he
    simp [hv] at he

/-- Everything _validate_response accepts is structurally valid, provided
the parsed reply is well typed and the catalog well named. -/
theorem validateResponse_good (c : List Product) (j : Json) (r : RecResult)
    (hwt : wtParsed j = true) (hgc : GoodCatalog c)
    (h : validateResponse c j = some r) : GoodResult r := by
  cases j with
  | obj fs =>
    simp only [wtParsed, Bool.and_eq_true] at hwt
    obtain ⟨hsum, hrecs⟩ := hwt
    simp only [validateResponse] at h
    split at h
    · exact absurd h (by simp)
    · rename_i recs0 hE
      obtain rfl := Option.some.inj h
      have hbase : recs0.length ≤ 5 ∧
          ∀ e ∈ recs0, e.product_id.isNonemptyStr = true ∧
            e.product_name.isNonemptyStr = true ∧ e.reasoning.isNonemptyStr = true := by
        revert hE
        unfold jGetD
        rcases hlk : fs.lookup "recommendations" with _ | v
        · intro hE
          simp only [Option.getD_none] at hE
          obtain rfl := Except.ok.inj hE
          simp
        · intro hE
          simp only [Option.getD_some] at hE
          rw [hlk] at hrecs
          cases v with
          | arr xs =>
            constructor
            · exact le_trans (processRecs_length c _ recs0 hE)
                (List.length_take_le _ _)
            · intro e he
              obtain ⟨rec, hrecmem, hpr⟩ := processRecs_mem c _ recs0 e hE he
              have hrecx : rec ∈ xs := List.take_subset _ _ hrecmem
              have hwtrec : wtRecJson rec = true := List.all_eq_true.1 hrecs rec hrecx
              exact processRec_good c rec e hwtrec hpr
          | null =>
            obtain rfl := Except.ok.inj hE
            simp
          | bool b =>
            obtain rfl := Except.ok.inj hE
            simp
          | num q =>
            obtain rfl := Except.ok.inj hE
            simp
          | str s =>
            obtain rfl := Except.ok.inj hE
            simp
          | obj gs =>
            obtain rfl := Except.ok.inj hE
            simp
      refine ⟨?_, ?_, ?_, ?_⟩
      · split
        · simp
        · exact hbase.1
      · intro e he
        split at he
        · rename_i hcond
          simp only [Bool.and_eq_true, Bool.not_eq_true'] at hcond
          obtain ⟨hs1, hs2⟩ := synth_fields_good c hcond.2 hgc
          simp only [List.mem_singleton] at he
          subst he
          exact ⟨hs1, hs2, rfl⟩
        · exact hbase.2 e he
      · unfold jGetD
        rcases hlk : fs.lookup "summary" with _ | v
        · rfl
        · unfold strOrAbsent at hsum
          rw [hlk] at hsum
          exact hsum
      · show (match jGetD fs "follow_up_questions" (Json.arr []) with
          | Json.arr qs =>
            List.filterMap (fun (q : Json) => if (q.truthy && pyStrip (pyStr q) != "") = true
              then some (pyStrip (pyStr q)) else none) (List.take 3 qs)
          | _ => ([] : List String)).length ≤ 3
        split
        all_goals
          first
            | exact le_trans (List.length_filterMap_le _ _) (List.length_take_le _ _)
            | simp
  | null => exact absurd h (by simp [validateResponse])
  | bool b => exact absurd h (by simp [validateResponse])
  | num q => exact absurd h (by simp [validateResponse])
  | str s => exact absurd h (by simp [validateResponse])
  | arr xs => exact absurd h (by simp [validateResponse])

/-- The retry loop only ever returns structurally valid results when every
attempt outcome is well typed. -/
theorem runAttempts_good (c : List Product) (outcomes : List GenOutcome)
    (hwt : ∀ o ∈ outcomes, wtOutcome o = true) (hgc : GoodCatalog c) :
    GoodResult (runAttempts c outcomes) := by
  induction outcomes with
  | nil => exact fallbackResponse_good c hgc
  | cons o rest ih =>
    have hrest : ∀ x ∈ rest, wtOutcome x = true := fun x hx => hwt x (List.mem_cons_of_mem o hx)
    cases o with
    | err => exact ih hrest
    | ok j =>
      rcases hv : validateResponse c j with _ | r
      · simpa [runAttempts, hv] using ih hrest
      · have hj : wtParsed j = true := hwt (.ok j) (List.mem_cons_self _ _)
        simpa [runAttempts, hv] using validateResponse_good c j r hj hgc hv

/-- The hard-coded fallback response obeys the size bounds for every catalog
state. -/
theorem fallbackResponse_bounds (c : List Product) :
    (fallbackResponse c).recommendations.length ≤ 5 ∧
    (fallbackResponse c).follow_up_questions.length ≤ 3 := by
  rcases hv : (validIds c).isEmpty with _ | _
  · simp [fallbackResponse, hv]
  · simp [fallbackResponse, hv]

/-- Whatever entry list the recommendations extraction accepts has at most
five entries, for every catalog state and parsed value. -/
theorem recsE_ok_length (c : List Product) (fs : List (String × Json))
    (recs0 : List RecItem)
    (hE : (match jGetD fs "recommendations" (.arr []) with
           | Json.arr xs => processRecs c (xs.take MAX_RECOMMENDATIONS)
           | _ => Except.ok []) = Except.ok recs0) :
    recs0.length ≤ 5 := by
  revert hE
  unfold jGetD
  rcases hlk : fs.lookup "recommendations" with _ | v
  · intro hE
    simp only [Option.getD_none] at hE
    obtain rfl := Except.ok.inj hE
    simp
  · intro hE
    simp only [Option.getD_some] at hE
    cases v with
    | arr xs =>
      exact le_trans (processRecs_length c _ recs0 hE) (List.length_take_le _ _)
    | null =>
      obtain rfl := Except.ok.inj hE
      simp
    | bool b =>
      obtain rfl := Except.ok.inj hE
      simp
    | num q =>
      obtain rfl := Except.ok.inj hE
      simp
    | str s =>
      obtain rfl := Except.ok.inj hE
      simp
    | obj gs =>
      obtain rfl := Except.ok.inj hE
      simp

/-- Every result _validate_response returns obeys the size bounds, for every
catalog state and parsed value. -/
theorem validateResponse_bounds (c : List Product) (j : Json) (r : RecResult)
    (h : validateResponse c j = some r) :
    r.recommendations.length ≤ 5 ∧ r.follow_up_questions.length ≤ 3 := by
  cases j with
  | obj fs =>
    simp only [validateResponse] at h
    split at h
    · exact absurd h (by simp)
    · rename_i recs0 hE
      obtain rfl := Option.some.inj h
      constructor
      · split
        · simp
        · exact recsE_ok_length c fs recs0 hE
      · show (match jGetD fs "follow_up_questions" (Json.arr []) with
          | Json.arr qs =>
            List.filterMap (fun (q : Json) => if (q.truthy && pyStrip (pyStr q) != "") = true
              then some (pyStrip (pyStr q)) else none) (List.take 3 qs)
          | _ => ([] : List String)).length ≤ 3
        split
        all_goals
          first
            | exact le_trans (List.length_filterMap_le _ _) (List.length_take_le _ _)
            | simp
  | null => exact absurd h (by simp [validateResponse])
  | bool b => exact absurd h (by simp [validateResponse])
  | num q => exact absurd h (by simp [validateResponse])
  | str s => exact absurd h (by simp [validateResponse])
  | arr xs => exact absurd h (by simp [validateResponse])

/-- The retry loop obeys the size bounds for every catalog state and attempt
sequence. -/
theorem runAttempts_bounds (c : List Product) (outcomes : List GenOutcome) :
    (runAttempts c outcomes).recommendations.length ≤ 5 ∧
    (runAttempts c outcomes).follow_up_questions.length ≤ 3 := by
  induction outcomes with
  | nil => exact fallbackResponse_bounds c
  | cons o rest ih =>
    cases o with
    | err => exact ih
    | ok j =>
      rcases hv : validateResponse c j with _ | r
      · simpa [runAttempts, hv] using ih
      · simpa [runAttempts, hv] using validateResponse_bounds c j r hv

/-! ## Claim theorems -/

/-- C2: for every process() call, the intent-driven filter transition holds:
SEARCH replaces the accumulated filters by the newly extracted ones merged
into an empty FilterSet, REFINE merges the newly extracted filters into the
previous accumulated FilterSet, and CLARIFY and CHITCHAT leave the
accumulated FilterSet unchanged. -/
theorem intent_filter_transition (acc : Filters) (extracted : IncomingFilters) :
    applyIntentTransition "SEARCH" acc extracted = updateFilters emptyFilters extracted ∧
    applyIntentTransition "REFINE" acc extracted = updateFilters acc extracted ∧
    applyIntentTransition "CLARIFY" acc extracted = acc ∧
    applyIntentTransition "CHITCHAT" acc extracted = acc :=
  ⟨rfl, rfl, rfl, rfl⟩

/-- C3: the filter merge overrides each scalar key by a non-null incoming
value and keeps the existing value when the incoming one is null or absent;
each set-valued key becomes the deduplicated union of both sides; and an
incoming scalar supplied for a set-valued key is coerced to a one-element
list before the union.  The set-valued keys of the accumulated side are
assumed duplicate-free, as every accumulated FilterSet built by the code
is. -/
theorem update_filters_merge (acc : Filters) (inc : IncomingFilters)
    (hbi : acc.brand_include.Nodup) (hbe : acc.brand_exclude.Nodup)
    (hfe : acc.features.Nodup) :
    (∀ v, inc.price_min = some v → (updateFilters acc inc).price_min = some v) ∧
    (inc.price_min = none → (updateFilters acc inc).price_min = acc.price_min) ∧
    (∀ v, inc.price_max = some v → (updateFilters acc inc).price_max = some v) ∧
    (inc.price_max = none → (updateFilters acc inc).price_max = acc.price_max) ∧
    (∀ v, inc.category = some v → (updateFilters acc inc).category = some v) ∧
    (inc.category = none → (updateFilters acc inc).category = acc.category) ∧
    (∀ v, inc.rating_min = some v → (updateFilters acc inc).rating_min = some v) ∧
    (inc.rating_min = none → (updateFilters acc inc).rating_min = acc.rating_min) ∧
    (∀ x, x ∈ (updateFilters acc inc).brand_include ↔
      x ∈ acc.brand_include ∨ x ∈ inc.brand_include.vals) ∧
    (updateFilters acc inc).brand_include.Nodup ∧
    (∀ x, x ∈ (updateFilters acc inc).brand_exclude ↔
      x ∈ acc.brand_exclude ∨ x ∈ inc.brand_exclude.vals) ∧
    (updateFilters acc inc).brand_exclude.Nodup ∧
    (∀ x, x ∈ (updateFilters acc inc).features ↔
      x ∈ acc.features ∨ x ∈ inc.features.vals) ∧
    (updateFilters acc inc).features.Nodup ∧
    (∀ ex s, mergeSetKey ex (.scalar s) = mergeSetKey ex (.listv [s])) := by
  refine ⟨?_, ?_, ?_, ?_, ?_, ?_, ?_, ?_, ?_, ?_, ?_, ?_, ?_, ?_, ?_⟩
  · intro v hv
    simp [updateFilters, overrideScalar, hv]
  · intro hv
    simp [updateFilters, overrideScalar, hv]
  · intro v hv
    simp [updateFilters, overrideScalar, hv]
  · intro hv
    simp [updateFilters, overrideScalar, hv]
  · intro v hv
    simp [updateFilters, overrideScalar, hv]
  · intro hv
    simp [updateFilters, overrideScalar, hv]
  · intro v hv
    simp [updateFilters, overrideScalar, hv]
  · intro hv
    simp [updateFilters, overrideScalar, hv]
  · intro x
    exact mergeSetKey_mem acc.brand_include inc.brand_include x
  · exact mergeSetKey_nodup acc.brand_include inc.brand_include hbi
  · intro x
    exact mergeSetKey_mem acc.brand_exclude inc.brand_exclude x
  · exact mergeSetKey_nodup acc.brand_exclude inc.brand_exclude hbe
  · intro x
    exact mergeSetKey_mem acc.features inc.features x
  · exact mergeSetKey_nodup acc.features inc.features hfe
  · intro ex s
    rfl

/-- Witness for C3 at a concrete merge: the incoming price_max overrides and
the incoming scalar brand joins the existing brand set. -/
theorem update_filters_merge_witness :
    (updateFilters
      { emptyFilters with price_max := some 100, brand_include := ["sony"] }
      { price_max := some 50, brand_include := .scalar "lg" }).price_max = some 50 ∧
    ("lg" ∈ (updateFilters
      { emptyFilters with price_max := some 100, brand_include := ["sony"] }
      { price_max := some 50, brand_include := .scalar "lg" }).brand_include) := by
  refine ⟨?_, ?_⟩
  · exact (update_filters_merge
      { emptyFilters with price_max := some 100, brand_include := ["sony"] }
      { price_max := some 50, brand_include := .scalar "lg" }
      (by decide) (by decide) (by decide)).2.2.1 50 rfl
  · exact ((update_filters_merge
      { emptyFilters with price_max := some 100, brand_include := ["sony"] }
      { price_max := some 50, brand_include := .scalar "lg" }
      (by decide) (by decide) (by decide)).2.2.2.2.2.2.2.2.1 "lg").2
      (Or.inr (by decide))

/-- C4: after any sequence of append-turn operations starting from a fresh
session, the history length never exceeds MAX_CONVERSATION_HISTORY and the
retained turns are exactly the most recently appended ones in order (the
suffix of the appended sequence). -/
theorem history_bound_and_suffix (ts : List Turn) :
    (runTurns ts).length ≤ MAX_CONVERSATION_HISTORY ∧
    runTurns ts = ts.drop (ts.length - MAX_CONVERSATION_HISTORY) := by
  refine ⟨?_, runTurns_drop ts⟩
  rw [runTurns_drop ts]
  simp only [List.length_drop]
  omega

/-- C5: the rejection filter in process() returns the pre-filter
recommendation list unchanged when removing all rejected ids would empty it,
and otherwise returns exactly the pre-filter list with the rejected entries
removed.  Product ids are restricted to strings (the data-model type; a
non-hashable id would make the Python membership test raise instead). -/
theorem rejection_never_empties (recs : List RecItem) (rejectedIds : List String)
    (_hstr : ∀ e ∈ recs, e.product_id.isStr = true) :
    (recs.filter (fun r => !(pyInStrSet r.product_id rejectedIds)) = [] →
      applyRejectionFilter recs rejectedIds = recs) ∧
    (recs.filter (fun r => !(pyInStrSet r.product_id rejectedIds)) ≠ [] →
      applyRejectionFilter recs rejectedIds
        = recs.filter (fun r => !(pyInStrSet r.product_id rejectedIds))) := by
  constructor
  · intro hempty
    simp [applyRejectionFilter, hempty]
  · intro hne
    simp only [applyRejectionFilter]
    rw [if_neg]
    simpa [List.isEmpty_iff] using hne

/-- Witness for C5: a singleton list whose only id is rejected is returned
unchanged. -/
theorem rejection_never_empties_witness :
    applyRejectionFilter [⟨Json.str "a", Json.str "A", Json.str "r"⟩] ["a"]
    = [⟨Json.str "a", Json.str "A", Json.str "r"⟩] :=
  (rejection_never_empties [⟨Json.str "a", Json.str "A", Json.str "r"⟩]
    ["a"] (by decide)).1 rfl

/-- C6: the deterministic heuristic fallback classifier applies its rules in
order: a greeting or thanks token anywhere in the lowercased query gives
CHITCHAT at 0.7; otherwise a question word together with a question mark
gives CLARIFY at 0.6; otherwise a refinement conjunction word with non-empty
history gives REFINE at 0.6; otherwise SEARCH at 0.5. -/
theorem heuristic_classifier_rules (q : String) (hist : List Turn) :
    ((["hello", "hi", "hey", "thanks", "thank you"].any
        (fun g => pyIn g (pyLower q))) = true →
      fallbackClassify q hist = ("CHITCHAT", 0.7)) ∧
    ((["hello", "hi", "hey", "thanks", "thank you"].any
        (fun g => pyIn g (pyLower q))) = false →
      ((["what", "how", "why", "explain", "tell me"].any
        (fun cw => pyIn cw (pyLower q))) && pyIn "?" q) = true →
      fallbackClassify q hist = ("CLARIFY", 0.6)) ∧
    ((["hello", "hi", "hey", "thanks", "thank you"].any
        (fun g => pyIn g (pyLower q))) = false →
      ((["what", "how", "why", "explain", "tell me"].any
        (fun cw => pyIn cw (pyLower q))) && pyIn "?" q) = false →
      ((["also", "and", "but", "except", "not", "without"].any
        (fun rw => pyIn rw (pyLower q))) && !hist.isEmpty) = true →
      fallbackClassify q hist = ("REFINE", 0.6)) ∧
    ((["hello", "hi", "hey", "thanks", "thank you"].any
        (fun g => pyIn g (pyLower q))) = false →
      ((["what", "how", "why", "explain", "tell me"].any
        (fun cw => pyIn cw (pyLower q))) && pyIn "?" q) = false →
      ((["also", "and", "but", "except", "not", "without"].any
        (fun rw => pyIn rw (pyLower q))) && !hist.isEmpty) = false →
      fallbackClassify q hist = ("SEARCH", 0.5)) := by
  refine ⟨?_, ?_, ?_, ?_⟩
  · intro h1
    simp only [fallbackClassify]
    rw [h1]
    rfl
  · intro h1 h2
    simp only [fallbackClassify]
    rw [h1, h2]
    rfl
  · intro h1 h2 h3
    simp only [fallbackClassify]
    rw [h1, h2, h3]
    rfl
  · intro h1 h2 h3
    simp only [fallbackClassify]
    rw [h1, h2, h3]
    rfl

/-- Witness for C6: the greeting rule fires on a concrete query. -/
theorem heuristic_classifier_rules_witness :
    fallbackClassify "hello" [] = ("CHITCHAT", 0.7) :=
  (heuristic_classifier_rules "hello" []).1 (by decide)

/-- C7 counterexample: with the primary extraction collaborator failing, the
fallback path (_regex_extract) applied to the query of the claim leaves
price_max unset, not 50: the vague-term lexicon is not consulted on the
fallback path. -/
theorem vague_term_fallback_counterexample :
    (regexExtract "I want something cheap" emptyFilters).price_max = none ∧
    (regexExtract "I want something cheap" emptyFilters).price_max ≠ some 50 := by
  exact ⟨by decide, by decide⟩

/-- C7 amended: when the primary extraction collaborator fails on the query
of the claim (empty history, empty existing filters), the regex fallback
returns the existing filters unchanged, so no price_max is set; the
cheap-to-50 mapping lives in the vague-term pass, which runs only on the
successful primary path, where it would set price_max to 50. -/
theorem vague_term_fallback_amended :
    regexExtract "I want something cheap" emptyFilters = emptyFilters ∧
    (applyVagueTerms "I want something cheap" emptyFilters).price_max = some 50 := by
  exact ⟨by decide, by decide⟩

/-- C9 counterexample: a FilterSet with both price bounds non-null but a zero
lower bound yields only one price predicate, because the translator gates
each bound on Python truthiness rather than non-nullness. -/
theorem chroma_price_zero_counterexample :
    ({ emptyFilters with price_min := some 0, price_max := some 100 } : Filters).price_min ≠ none ∧
    ({ emptyFilters with price_min := some 0, price_max := some 100 } : Filters).price_max ≠ none ∧
    pricePredCount (buildChromaFilters []
      (some { emptyFilters with price_min := some 0, price_max := some 100 })) = 1 := by
  exact ⟨by decide, by decide, by decide⟩

/-- C9 amended: with no raw predicates, a fully unconstrained FilterSet
translates to the absent where clause (None, not an empty conjunction), and
the count of price predicates is two when both bounds are truthy (non-null
and non-zero) and one when exactly one bound is truthy. -/
theorem chroma_filter_translation (f : Filters) :
    (f = emptyFilters → buildChromaFilters [] (some f) = none) ∧
    (truthyOptQ f.price_min = true → truthyOptQ f.price_max = true →
      pricePredCount (buildChromaFilters [] (some f)) = 2) ∧
    (truthyOptQ f.price_min = true → truthyOptQ f.price_max = false →
      pricePredCount (buildChromaFilters [] (some f)) = 1) ∧
    (truthyOptQ f.price_min = false → truthyOptQ f.price_max = true →
      pricePredCount (buildChromaFilters [] (some f)) = 1) := by
  refine ⟨?_, ?_, ?_, ?_⟩
  · rintro rfl
    rfl
  all_goals
    intro h1 h2
    simp only [pricePredCount, whereConds_build, rawConds, List.foldl_nil, List.nil_append]
    unfold agentConds
    rw [h1, h2]
    by_cases h3 : truthyOptS f.category <;>
      by_cases h4 : f.brand_include.isEmpty <;>
        by_cases h5 : truthyOptQ f.rating_min <;>
          simp [h3, h4, h5, ChromaCond.field]

/-- Witness for C9 at concrete bounds: both bounds truthy gives two price
predicates. -/
theorem chroma_filter_translation_witness :
    pricePredCount (buildChromaFilters []
      (some { emptyFilters with price_min := some 5, price_max := some 80 })) = 2 :=
  (chroma_filter_translation
    { emptyFilters with price_min := some 5, price_max := some 80 }).2.1
    (by decide) (by decide)

/-- C10: when retrieval returns an empty product list, process() leaves the
LLM client's catalog untouched, so id validation and fallback
recommendations for that turn run against the previous catalog state. -/
theorem catalog_unchanged_on_empty_retrieval (current retrieved : List Product)
    (h : retrieved = []) :
    updateCatalogStep current retrieved = current ∧
    (∀ attempts maxRetries,
      getRecommendations (updateCatalogStep current retrieved) attempts maxRetries
        = getRecommendations current attempts maxRetries) ∧
    validIds (updateCatalogStep current retrieved) = validIds current := by
  subst h
  exact ⟨rfl, fun _ _ => rfl, rfl⟩

/-- Witness for C10 at a concrete one-product catalog. -/
theorem catalog_unchanged_on_empty_retrieval_witness :
    updateCatalogStep [{ id := "p1", name := "Gadget" }] [] = [{ id := "p1", name := "Gadget" }] :=
  (catalog_unchanged_on_empty_retrieval [{ id := "p1", name := "Gadget" }] [] rfl).1

/-- C1 counterexample: the claimed structural validity fails in two
independent ways, each at a concrete input.  A generator whose parsed reply
carries a null summary yields a result whose summary is not a string (the
validator passes the parsed summary value through unchanged); and a catalog
product with a usable id but an empty name makes the synthesized fallback
recommendation carry an empty product_name (the fallback copies the stored
name verbatim, with no defaulting). -/
theorem get_recommendations_wellformedness_counterexample :
    (getRecommendations []
      (fun _ => GenOutcome.ok (Json.obj [("summary", Json.null)])) 0).summary = Json.null ∧
    (getRecommendations []
      (fun _ => GenOutcome.ok (Json.obj [("summary", Json.null)])) 0).summary.isStr = false ∧
    (getRecommendations [{ id := "p1", name := "" }]
      (fun _ => GenOutcome.err) 0).recommendations
      = [⟨Json.str "p1", Json.str "",
          Json.str "Fallback recommendation due to processing error"⟩] ∧
    ((getRecommendations [{ id := "p1", name := "" }]
      (fun _ => GenOutcome.err) 0).recommendations.all
        (fun e => e.product_name.isNonemptyStr)) = false :=
  ⟨rfl, rfl, rfl, rfl⟩

/-- C1 amended: for every prompt, every catalog state and every generator
behaviour (including one that always throws or always returns unparsable
text), get_recommendations returns without raising a result with at most 5
recommendations and at most 3 follow-up questions — unconditionally; and
when additionally every successfully parsed attempt supplies only string
values for its summary and per-recommendation fields, and every usable
catalog product has a non-empty name, the summary is a string and every
recommendation carries non-empty product_id, product_name and reasoning
strings. -/
theorem get_recommendations_validity (catalog : List Product)
    (attempts : Nat → GenOutcome) (maxRetries : Nat) :
    (getRecommendations catalog attempts maxRetries).recommendations.length ≤ 5 ∧
    (getRecommendations catalog attempts maxRetries).follow_up_questions.length ≤ 3 ∧
    ((∀ i < maxRetries + 1, wtOutcome (attempts i) = true) → GoodCatalog catalog →
      GoodResult (getRecommendations catalog attempts maxRetries)) := by
  refine ⟨(runAttempts_bounds catalog _).1, (runAttempts_bounds catalog _).2, ?_⟩
  intro hwt hgc
  refine runAttempts_good catalog _ ?_ hgc
  intro o ho
  simp only [List.mem_map, List.mem_range] at ho
  obtain ⟨i, hi, rfl⟩ := ho
  exact hwt i hi

/-- Witness for C1 at a concrete catalog and an always-failing generator:
the bounds hold and both implications discharge, giving a fully well-formed
fallback result. -/
theorem get_recommendations_validity_witness :
    (getRecommendations [{ id := "p1", name := "Gadget" }]
      (fun _ => GenOutcome.err) 1).recommendations.length ≤ 5 ∧
    GoodResult (getRecommendations [{ id := "p1", name := "Gadget" }]
      (fun _ => GenOutcome.err) 1) :=
  ⟨(get_recommendations_validity [{ id := "p1", name := "Gadget" }]
      (fun _ => GenOutcome.err) 1).1,
   (get_recommendations_validity [{ id := "p1", name := "Gadget" }]
      (fun _ => GenOutcome.err) 1).2.2 (fun _ _ => rfl) (by unfold GoodCatalog; decide)⟩

end AgentSpec
